import Mathlib

/-!
Verification of the f1-predictions prediction pipeline (src/predict.py).

The Python program is embedded shallowly:

* fastf1 (the external historical-data provider) is modelled as a `Provider`
  structure: `getSession season round kind` returns `some` ordered result list
  on success and `none` on a fetch failure (every kind of failure is caught by
  a bare `except:` in the source, so a single `Option` models it), and
  `getSchedule season` likewise returns the event list or `none`.
* Python floats are modelled as `ℚ` (all values produced by the program are
  sums, negations and means of small integers).
* `defaultdict(float)` keyed by `DriverNumber` is modelled as a total function
  `String → ℚ` that is `0` off its written keys (entries are only ever created
  by `+=` of a positive table value, so `dict.get(d, 0)` and the total function
  agree).
* `defaultdict(list)` is modelled as an insertion-ordered association list
  `List (key × List Int)`; `dict` keyed lookups with a default are modelled by
  `alookup` composed with `Option.getD`.
* The Python `set` `season_drivers` is modelled as a duplicate-free list in
  first-insertion order (only membership is relevant to the claims).
* `round_num`, wall-clock filtering of the schedule, printing and the CLI are
  outside the embedded core; the set of completed rounds (`valid_rounds`) is a
  parameter, exactly as it is a parameter of `get_total_driver_points` and
  `get_avg_finish_pos` in the source.
-/

/-- Session kinds requested from the provider: the source requests
sessions with the strings R (race) and Sprint. -/
inductive SessionKind : Type
  | Race : SessionKind
  | Sprint : SessionKind
deriving DecidableEq, Repr

/-- One row of a loaded session's `results` table, with the three fields the
source reads: `drv.DriverNumber` (a string in fastf1), `drv.FullName`, and
`drv.Position`. -/
structure ResultEntry : Type where
  driverId : String
  fullName : String
  position : Int
deriving DecidableEq, Repr

/-- One row of an event schedule, with the two fields the source reads:
`EventName` and `RoundNumber`. The `EventDate` column is consumed only by the
wall-clock completed-rounds filter, which is outside the embedded core, so it
is omitted here. -/
structure Event : Type where
  eventName : String
  roundNumber : Int
deriving DecidableEq, Repr

/-- The external data source (fastf1). `getSession year rnd kind` models
`fastf1.get_session(year, rnd, kind)` followed by `.load()`: `some results`
when the fetch succeeds, `none` when any exception is raised.
`getSchedule year` models `fastf1.get_event_schedule(year)` the same way.
A `Provider` is a function, so repeated fetches of the same key always agree
(the source enables a local cache with the same effect). -/
structure Provider : Type where
  getSession : Int → Int → SessionKind → Option (List ResultEntry)
  getSchedule : Int → Option (List Event)

/-- Race points table from the source: `FIA_POINTS_RACE = [25, 18, 15, 12, 10, 8, 6, 4, 2, 1]`. -/
def FIA_POINTS_RACE : List ℚ := [25, 18, 15, 12, 10, 8, 6, 4, 2, 1]

/-- Sprint points table from the source: `FIA_POINTS_SPRINT = [8, 7, 6, 5, 4, 3, 2, 1]`. -/
def FIA_POINTS_SPRINT : List ℚ := [8, 7, 6, 5, 4, 3, 2, 1]

/-- The inner awarding loop of `get_total_driver_points`:
`for i, drv in enumerate(results, start=1): if i <= cutoff: points[drv.DriverNumber] += table[i-1]`.
`i` is the 1-based position of the entry in the ordered results list. -/
def awardFrom (table : List ℚ) (cutoff : Nat) : Nat → List ResultEntry → (String → ℚ) → (String → ℚ)
  | _, [], points => points
  | i, e :: rest, points =>
      awardFrom table cutoff (i + 1) rest
        (if i ≤ cutoff then
          (fun d => if d = e.driverId then points d + table.getD (i - 1) 0 else points d)
        else points)

/-- One iteration of the round loop in `get_total_driver_points`. The source
wraps the race fetch and its awarding loop in `try ... except: continue`, so a
race fetch failure `continue`s to the NEXT ROUND and the sprint fetch of the
same round is never attempted; a sprint fetch failure only skips the sprint
awarding (its `continue` is the end of the loop body anyway). -/
def pointsRound (P : Provider) (year rnd : Int) (points : String → ℚ) : String → ℚ :=
  match P.getSession year rnd SessionKind.Race with
  | none => points
  | some race =>
      let afterRace := awardFrom FIA_POINTS_RACE 10 1 race points
      match P.getSession year rnd SessionKind.Sprint with
      | none => afterRace
      | some sprint => awardFrom FIA_POINTS_SPRINT 8 1 sprint afterRace

/-- Embedding of `get_total_driver_points(year, valid_rounds)`: a left fold of
`pointsRound` over the round list, starting from the empty
`defaultdict(float)` (the constant-zero function). -/
def get_total_driver_points (P : Provider) (year : Int) (valid_rounds : List Int) : String → ℚ :=
  valid_rounds.foldl (fun points rnd => pointsRound P year rnd points) (fun _ => 0)

/-- Total points a driver `d` collects from one session's ordered results under
a points table with a rank cutoff, entry positions counted from `i`: the entry
at 1-based position `k` contributes `table[k-1]` when `k ≤ cutoff` and `0`
beyond the cutoff. This is the specification-shaped per-session sum that
`awardFrom` is proved to realise. -/
def sessionContrib (table : List ℚ) (cutoff : Nat) (d : String) : Nat → List ResultEntry → ℚ
  | _, [] => 0
  | i, e :: rest =>
      (if e.driverId = d then (if i ≤ cutoff then table.getD (i - 1) 0 else 0) else 0)
        + sessionContrib table cutoff d (i + 1) rest

/-- Append one finish position to a driver's list, creating the key with a
one-element list when absent: the `defaultdict(list)`
`finishes[key].append(p)` idiom. Keys keep insertion order. -/
def appendFinish {κ : Type} [DecidableEq κ] : List (κ × List Int) → κ → Int → List (κ × List Int)
  | [], k, p => [(k, [p])]
  | (k0, v) :: rest, k, p =>
      if k0 = k then (k0, v ++ [p]) :: rest else (k0, v) :: appendFinish rest k p

/-- One iteration of the round loop of `get_avg_finish_pos`: a failed race
fetch skips the round (`except: continue`), a successful one appends
`int(drv.Position)` for every entry under key `drv.DriverNumber`. -/
def raceFinishFold (P : Provider) (year : Int) (m : List (String × List Int)) (rnd : Int) :
    List (String × List Int) :=
  match P.getSession year rnd SessionKind.Race with
  | none => m
  | some res => res.foldl (fun m e => appendFinish m e.driverId e.position) m

/-- The `finishes` accumulator of `get_avg_finish_pos` after the round loop. -/
def finishesMap (P : Provider) (year : Int) (valid_rounds : List Int) :
    List (String × List Int) :=
  valid_rounds.foldl (raceFinishFold P year) []

/-- The value expression of the closing dict comprehensions:
`sum(pos_list)/len(pos_list) if pos_list else 20`. -/
def meanOr20 (pos_list : List Int) : ℚ :=
  if pos_list = [] then 20
  else (pos_list.map (fun p => (Int.cast p : ℚ))).sum / pos_list.length

/-- Embedding of `get_avg_finish_pos(year, valid_rounds)`. -/
def get_avg_finish_pos (P : Provider) (year : Int) (valid_rounds : List Int) :
    List (String × ℚ) :=
  (finishesMap P year valid_rounds).map (fun p => (p.1, meanOr20 p.2))

/-- Case-insensitive containment test modelling
`series.str.contains(circuit_name, case=False, na=False)` for a plain-text
pattern (pandas reads the pattern as a regular expression; on patterns without
regex metacharacters the two coincide, and no claim depends on the pattern
syntax). -/
def containsCI (hay pat : String) : Bool :=
  decide (pat.toLower.toList <:+: hay.toLower.toList)

/-- Resolve a circuit name against a schedule:
`schedule[schedule['EventName'].str.contains(...)]` followed by
`.iloc[0]['RoundNumber']` when the filtered frame is non-empty. -/
def resolveRound (schedule : List Event) (circuit_name : String) : Option Int :=
  ((schedule.filter (fun e => containsCI e.eventName circuit_name)).head?).map Event.roundNumber

/-- The candidate-season list of `get_past_track_performance`:
`[y for y in range(year - 3, year) if y >= 2018]`. -/
def pastYears (year : Int) : List Int :=
  [year - 3, year - 2, year - 1].filter (fun y => 2018 ≤ y)

/-- One iteration of the season loop of `get_past_track_performance`: fetch the
schedule, resolve the circuit to a round (skip the season when the filter comes
back empty), fetch that round's race, and append `int(drv.Position)` under key
`drv.FullName`; any fetch failure skips the season (`except: continue`). -/
def trackYearFold (P : Provider) (circuit_name : String) (m : List (String × List Int)) (y : Int) :
    List (String × List Int) :=
  match P.getSchedule y with
  | none => m
  | some schedule =>
      match resolveRound schedule circuit_name with
      | none => m
      | some rnd =>
          match P.getSession y rnd SessionKind.Race with
          | none => m
          | some res => res.foldl (fun m e => appendFinish m e.fullName e.position) m

/-- The `track_performance` accumulator of `get_past_track_performance` after
the season loop. -/
def trackMap (P : Provider) (circuit_name : String) (year : Int) : List (String × List Int) :=
  (pastYears year).foldl (trackYearFold P circuit_name) []

/-- Embedding of `get_past_track_performance(circuit_name, year)`. -/
def get_past_track_performance (P : Provider) (circuit_name : String) (year : Int) :
    List (String × ℚ) :=
  (trackMap P circuit_name year).map (fun p => (p.1, meanOr20 p.2))

/-- Python `dict.get(k, default)` on an association list, without the default:
`alookup m k` is `some v` when `k` is a key of `m` and `none` otherwise. -/
def alookup {κ α : Type} [DecidableEq κ] (m : List (κ × α)) (k : κ) : Option α :=
  (m.find? (fun p => decide (p.1 = k))).map Prod.snd

/-- The inner loop of the `season_drivers` / `name_lookup` collection in
`predict_race`: for each result entry, add `drv.DriverNumber` to the driver set
and (re)assign `name_lookup[driver_num] = drv.FullName`, so a later entry for
the same driver overwrites the earlier name. -/
def seasonStep : List ResultEntry → List String × (String → Option String) →
    List String × (String → Option String)
  | [], st => st
  | e :: rest, st =>
      seasonStep rest
        (if e.driverId ∈ st.1 then st.1 else st.1 ++ [e.driverId],
         fun d => if d = e.driverId then some e.fullName else st.2 d)

/-- One iteration of the collection loop of `predict_race` (lines 98-107): only
the Race session is fetched; a fetch failure leaves the state unchanged
(`except: continue`). -/
def seasonRound (P : Provider) (year : Int) (st : List String × (String → Option String))
    (rnd : Int) : List String × (String → Option String) :=
  match P.getSession year rnd SessionKind.Race with
  | none => st
  | some res => seasonStep res st

/-- The `(season_drivers, name_lookup)` pair built by `predict_race` after its
collection loop over `valid_rounds`. -/
def seasonFold (P : Provider) (year : Int) (valid_rounds : List Int) :
    List String × (String → Option String) :=
  valid_rounds.foldl (seasonRound P year) ([], fun _ => none)

/-- One row of the `data` list of `predict_race` before scoring: the DataFrame
columns Driver, Points, AvgFinishPos, TrackAvgPos. -/
structure PredictionRow : Type where
  driver : String
  points : ℚ
  avgFinishPos : ℚ
  trackAvgPos : ℚ
deriving DecidableEq, Repr

/-- Build one `data` row of `predict_race`:
`name = name_lookup.get(drv, f"Driver #{drv}")`, `pts = points.get(drv, 0)`,
`avg_pos = avg_finish.get(drv, 20)`, `track_pos = track_perf.get(name, 20)`. -/
def mkRow (points : String → ℚ) (avg_finish : String → Option ℚ)
    (track_perf : String → Option ℚ) (name_lookup : String → Option String)
    (drv : String) : PredictionRow :=
  let name := (name_lookup drv).getD ("Driver #" ++ drv)
  { driver := name
    points := points drv
    avgFinishPos := (avg_finish drv).getD 20
    trackAvgPos := (track_perf name).getD 20 }

/-- Weight constant `W_POINTS = 20` from `predict_race`. -/
def W_POINTS : ℚ := 20

/-- Weight constant `W_AVG_FINISH = 25` from `predict_race`. -/
def W_AVG_FINISH : ℚ := 25

/-- Weight constant `W_TRACK_AVG = 25` from `predict_race`. -/
def W_TRACK_AVG : ℚ := 25

/-- The CustomScore column:
`Points * W_POINTS + (-AvgFinishPos) * W_AVG_FINISH + (-TrackAvgPos) * W_TRACK_AVG`. -/
def customScore (r : PredictionRow) : ℚ :=
  r.points * W_POINTS + (-r.avgFinishPos) * W_AVG_FINISH + (-r.trackAvgPos) * W_TRACK_AVG

/-- Insert a row into a list that is sorted by CustomScore descending, keeping
it sorted. -/
def insertDesc (x : PredictionRow) : List PredictionRow → List PredictionRow
  | [] => [x]
  | y :: ys => if customScore y ≤ customScore x then x :: y :: ys else y :: insertDesc x ys

/-- Sorting of `df.sort_values("CustomScore", ascending=False)`: an insertion
sort by CustomScore descending. The source delegates tie order to pandas
quicksort, which the specification leaves explicitly unspecified, so any sort
that is a descending-sorted permutation is a faithful model. -/
def sortByScoreDesc (rows : List PredictionRow) : List PredictionRow :=
  rows.foldr insertDesc []

/-- Rank assignment of `predict_race`: after the descending sort,
`reset_index` and `df["PredictedRank"] = df.index + 1` pair each row with its
1-based position. -/
def assignRanks (rows : List PredictionRow) : List (Nat × PredictionRow) :=
  (sortByScoreDesc rows).enum.map (fun p => (p.1 + 1, p.2))

/-- Rounding of one numeric cell for presentation: `round(x, 2)`. `ℚ` has no
float ties-to-even artefacts, so rounding to the nearest multiple of 1/100 is
used; no claim depends on the tie direction. -/
def round2 (x : ℚ) : ℚ := (round (x * 100) : ℚ) / 100

/-- One printed row of the final table: PredictedRank, Driver, and the four
numeric columns after `applymap(lambda x: round(x, 2))`. -/
structure DisplayRow : Type where
  predictedRank : Nat
  driver : String
  points : ℚ
  avgFinishPos : ℚ
  trackAvgPos : ℚ
  customScore : ℚ
deriving DecidableEq, Repr

/-- Presentation of one ranked row: the rank is kept as assigned and the
numeric columns Points, AvgFinishPos, TrackAvgPos, CustomScore are rounded to
2 decimal places. -/
def displayRow (p : Nat × PredictionRow) : DisplayRow :=
  { predictedRank := p.1
    driver := p.2.driver
    points := round2 p.2.points
    avgFinishPos := round2 p.2.avgFinishPos
    trackAvgPos := round2 p.2.trackAvgPos
    customScore := round2 (customScore p.2) }

/-- The ranked, rounded output table of `predict_race`: ranking happens on the
unrounded rows, rounding is applied afterwards row by row. -/
def displayRows (rows : List PredictionRow) : List DisplayRow :=
  (assignRanks rows).map displayRow

/-- The `data` row list built by `predict_race` (lines 109-115) from the three
aggregates and the collected season driver set. -/
def predict_race_rows (P : Provider) (year : Int) (valid_rounds : List Int)
    (circuit_name : String) : List PredictionRow :=
  let points := get_total_driver_points P year valid_rounds
  let avg_finish := alookup (get_avg_finish_pos P year valid_rounds)
  let track_perf := alookup (get_past_track_performance P circuit_name year)
  let st := seasonFold P year valid_rounds
  st.1.map (mkRow points avg_finish track_perf st.2)

/-- The full-name entry the last occurrence of driver `d` in one ordered result
list would leave in `name_lookup`: later entries take precedence. -/
def nameFromResult (res : List ResultEntry) (d : String) : Option String :=
  match res with
  | [] => none
  | e :: rest =>
      (nameFromResult rest d).or (if e.driverId = d then some e.fullName else none)

/-- The full name of driver `d` recorded by the LAST round, in iteration order,
whose Race fetch succeeded and whose results contain `d`; `none` when no such
round exists. This is the specification-shaped description that the
`name_lookup` fold is proved to realise. -/
def lastRecordedName (P : Provider) (year : Int) (rounds : List Int) (d : String) : Option String :=
  match rounds with
  | [] => none
  | rnd :: rest =>
      (lastRecordedName P year rest d).or
        (match P.getSession year rnd SessionKind.Race with
         | none => none
         | some res => nameFromResult res d)

/-- Invariant of the defaultdict-of-lists accumulators: every recorded
position list is non-empty and holds only positions of at least 1. -/
def goodFinishes {κ : Type} (m : List (κ × List Int)) : Prop :=
  ∀ p ∈ m, p.2 ≠ [] ∧ ∀ q ∈ p.2, 1 ≤ q

/-- Fixture provider: round 1 has a Sprint result but its Race fetch fails;
everything else fails. -/
def Pex1 : Provider where
  getSession := fun year rnd kind =>
    if year = 2023 ∧ rnd = 1 ∧ kind = SessionKind.Sprint then
      some [{ driverId := "44", fullName := "Lewis Hamilton", position := 1 }]
    else none
  getSchedule := fun _ => none

/-- Fixture provider: round 1 fails entirely; every other round has a
one-driver Race result and no Sprint. -/
def Pw1 : Provider where
  getSession := fun _ rnd kind =>
    if rnd = 1 then none
    else if kind = SessionKind.Race then
      some [{ driverId := "1", fullName := "Max Verstappen", position := 1 }]
    else none
  getSchedule := fun _ => none

/-- Fixture provider: round 1 has driver 1 in the Race result and driver 44
only in the Sprint result. -/
def Pex2 : Provider where
  getSession := fun _ rnd kind =>
    if rnd = 1 ∧ kind = SessionKind.Race then
      some [{ driverId := "1", fullName := "Max Verstappen", position := 1 }]
    else if rnd = 1 ∧ kind = SessionKind.Sprint then
      some [{ driverId := "44", fullName := "Lewis Hamilton", position := 1 }]
    else none
  getSchedule := fun _ => none

/-- Fixture provider: every Race fetch returns a single driver who finished
first; Sprint and schedule fetches fail. -/
def Pw9 : Provider where
  getSession := fun _ _ kind =>
    if kind = SessionKind.Race then
      some [{ driverId := "1", fullName := "Max Verstappen", position := 1 }]
    else none
  getSchedule := fun _ => none

/-- Fixture provider for the lookback frame property: schedule data exists
only for season 2010, far outside every lookback window of interest. -/
def PwinA : Provider where
  getSession := fun _ _ _ => none
  getSchedule := fun y => if y = 2010 then some [] else none

/-- Fixture provider that differs from `PwinA` only at season 2010. -/
def PwinB : Provider where
  getSession := fun _ _ _ => none
  getSchedule := fun _ => none

/-- Fixture provider on which every fetch fails. -/
def Pnone : Provider where
  getSession := fun _ _ _ => none
  getSchedule := fun _ => none

/-- Fixture row with composite score `25*20 - 1*25 - 1*25 = 450`. -/
def rowA : PredictionRow :=
  { driver := "Max Verstappen", points := 25, avgFinishPos := 1, trackAvgPos := 1 }

/-- Fixture row with composite score `18*20 - 2*25 - 2*25 = 260`. -/
def rowB : PredictionRow :=
  { driver := "Lewis Hamilton", points := 18, avgFinishPos := 2, trackAvgPos := 2 }

theorem awardFrom_apply (table : List ℚ) (cutoff : Nat) (res : List ResultEntry) :
    ∀ (i : Nat) (points : String → ℚ) (d : String),
      awardFrom table cutoff i res points d = points d + sessionContrib table cutoff d i res := by
  induction res with
  | nil => intro i points d; simp [awardFrom, sessionContrib]
  | cons e rest ih =>
      intro i points d
      simp only [awardFrom, sessionContrib, ih]
      by_cases hc : i ≤ cutoff
      · by_cases hd : d = e.driverId
        · simp only [hc, hd, if_true, ite_true, if_pos rfl]
          ring
        · have hd2 : ¬ e.driverId = d := fun hx => hd hx.symm
          simp [hc, hd, hd2]
      · simp [hc]

theorem getD_nonneg_of_forall {table : List ℚ} (h : ∀ q ∈ table, 0 ≤ q) (n : Nat) :
    0 ≤ table.getD n 0 := by
  rw [List.getD_eq_getElem?_getD]
  cases hx : table[n]? with
  | none => simp
  | some x =>
      simp only [Option.getD_some]
      exact h x (List.getElem?_mem hx)

theorem sessionContrib_nonneg {table : List ℚ} (h : ∀ q ∈ table, 0 ≤ q)
    (cutoff : Nat) (d : String) (res : List ResultEntry) :
    ∀ i : Nat, 0 ≤ sessionContrib table cutoff d i res := by
  induction res with
  | nil => intro i; simp [sessionContrib]
  | cons e rest ih =>
      intro i
      simp only [sessionContrib]
      refine add_nonneg ?_ (ih (i + 1))
      by_cases hd : e.driverId = d
      · by_cases hc : i ≤ cutoff
        · simpa [hd, hc] using getD_nonneg_of_forall h (i - 1)
        · simp [hd, hc]
      · simp [hd]

theorem FIA_POINTS_RACE_nonneg : ∀ q ∈ FIA_POINTS_RACE, 0 ≤ q := by decide

theorem FIA_POINTS_SPRINT_nonneg : ∀ q ∈ FIA_POINTS_SPRINT, 0 ≤ q := by decide

theorem pointsRound_nonneg (P : Provider) (year rnd : Int) (points : String → ℚ)
    (h : ∀ d, 0 ≤ points d) : ∀ d, 0 ≤ pointsRound P year rnd points d := by
  intro d
  unfold pointsRound
  cases hr : P.getSession year rnd SessionKind.Race with
  | none => exact h d
  | some race =>
      cases hs : P.getSession year rnd SessionKind.Sprint with
      | none =>
          simp only [awardFrom_apply]
          exact add_nonneg (h d) (sessionContrib_nonneg FIA_POINTS_RACE_nonneg _ _ _ _)
      | some sprint =>
          simp only [awardFrom_apply]
          exact add_nonneg (add_nonneg (h d)
            (sessionContrib_nonneg FIA_POINTS_RACE_nonneg _ _ _ _))
            (sessionContrib_nonneg FIA_POINTS_SPRINT_nonneg _ _ _ _)

theorem foldl_pointsRound_nonneg (P : Provider) (year : Int) :
    ∀ (rounds : List Int) (points : String → ℚ), (∀ d, 0 ≤ points d) →
      ∀ d, 0 ≤ (rounds.foldl (fun pts rnd => pointsRound P year rnd pts) points) d := by
  intro rounds
  induction rounds with
  | nil => intro points h d; exact h d
  | cons r rest ih =>
      intro points h d
      exact ih (pointsRound P year r points) (pointsRound_nonneg P year r points h) d

theorem seasonStep_mem (d : String) :
    ∀ (res : List ResultEntry) (st : List String × (String → Option String)),
      d ∈ (seasonStep res st).1 ↔ d ∈ st.1 ∨ ∃ e ∈ res, e.driverId = d := by
  intro res
  induction res with
  | nil => intro st; simp [seasonStep]
  | cons e rest ih =>
      intro st
      rw [seasonStep, ih]
      have hmem : d ∈ (if e.driverId ∈ st.1 then st.1 else st.1 ++ [e.driverId]) ↔
          d ∈ st.1 ∨ e.driverId = d := by
        by_cases he : e.driverId ∈ st.1
        · simp only [he, if_true, ite_true]
          exact ⟨Or.inl, fun h => h.elim id (fun hd => hd ▸ he)⟩
        · simp [he, List.mem_append, eq_comm]
      simp only [hmem, List.exists_mem_cons_iff]
      tauto

theorem seasonFold_go_mem (P : Provider) (year : Int) (d : String) :
    ∀ (rounds : List Int) (st : List String × (String → Option String)),
      d ∈ (rounds.foldl (seasonRound P year) st).1 ↔
        d ∈ st.1 ∨ ∃ rnd ∈ rounds, ∃ res,
          P.getSession year rnd SessionKind.Race = some res ∧ ∃ e ∈ res, e.driverId = d := by
  intro rounds
  induction rounds with
  | nil => intro st; simp
  | cons r rest ih =>
      intro st
      rw [List.foldl_cons, ih]
      have hr : d ∈ (seasonRound P year st r).1 ↔
          d ∈ st.1 ∨ ∃ res, P.getSession year r SessionKind.Race = some res ∧
            ∃ e ∈ res, e.driverId = d := by
        unfold seasonRound
        cases hs : P.getSession year r SessionKind.Race with
        | none => simp
        | some res => simp [seasonStep_mem]
      rw [hr]
      simp only [List.exists_mem_cons_iff]
      rw [or_assoc]

theorem seasonFold_mem_iff (P : Provider) (year : Int) (rounds : List Int) (d : String) :
    d ∈ (seasonFold P year rounds).1 ↔
      ∃ rnd ∈ rounds, ∃ res, P.getSession year rnd SessionKind.Race = some res ∧
        ∃ e ∈ res, e.driverId = d := by
  unfold seasonFold
  rw [seasonFold_go_mem]
  simp

theorem seasonStep_nl (d : String) :
    ∀ (res : List ResultEntry) (st : List String × (String → Option String)),
      (seasonStep res st).2 d = (nameFromResult res d).or (st.2 d) := by
  intro res
  induction res with
  | nil => intro st; simp [seasonStep, nameFromResult]
  | cons e rest ih =>
      intro st
      rw [seasonStep, ih, nameFromResult, Option.or_assoc]
      congr 1
      by_cases hd : d = e.driverId
      · simp [hd]
      · have hd2 : ¬ e.driverId = d := fun hx => hd hx.symm
        simp [hd, hd2]

theorem seasonFold_go_nl (P : Provider) (year : Int) (d : String) :
    ∀ (rounds : List Int) (st : List String × (String → Option String)),
      (rounds.foldl (seasonRound P year) st).2 d
        = (lastRecordedName P year rounds d).or (st.2 d) := by
  intro rounds
  induction rounds with
  | nil => intro st; simp [lastRecordedName]
  | cons r rest ih =>
      intro st
      rw [List.foldl_cons, ih, lastRecordedName, Option.or_assoc]
      congr 1
      unfold seasonRound
      cases hs : P.getSession year r SessionKind.Race with
      | none => simp
      | some res => simp [seasonStep_nl]

theorem seasonFold_name_lookup (P : Provider) (year : Int) (rounds : List Int)
    (d : String) :
    (seasonFold P year rounds).2 d = lastRecordedName P year rounds d := by
  unfold seasonFold
  rw [seasonFold_go_nl]
  simp

theorem trackYearFold_congr (P Q : Provider) (circuit : String) (y : Int)
    (hsch : P.getSchedule y = Q.getSchedule y)
    (hses : ∀ r k, P.getSession y r k = Q.getSession y r k)
    (m : List (String × List Int)) :
    trackYearFold P circuit m y = trackYearFold Q circuit m y := by
  unfold trackYearFold
  rw [hsch]
  cases Q.getSchedule y with
  | none => rfl
  | some sched =>
      dsimp only
      cases resolveRound sched circuit with
      | none => rfl
      | some rnd =>
          dsimp only
          rw [hses rnd SessionKind.Race]

theorem foldl_congr_on {α β : Type} (f g : β → α → β) :
    ∀ (l : List α), (∀ b a, a ∈ l → f b a = g b a) → ∀ b : β, l.foldl f b = l.foldl g b := by
  intro l
  induction l with
  | nil => intro _ b; rfl
  | cons a rest ih =>
      intro h b
      rw [List.foldl_cons, List.foldl_cons, h b a (List.mem_cons_self a rest)]
      exact ih (fun b x hx => h b x (List.mem_cons_of_mem a hx)) _

theorem appendFinish_good {κ : Type} [DecidableEq κ] (p : Int) (hp : 1 ≤ p) :
    ∀ (m : List (κ × List Int)) (k : κ), goodFinishes m → goodFinishes (appendFinish m k p) := by
  intro m
  induction m with
  | nil =>
      intro k _ x hx
      simp only [appendFinish, List.mem_singleton] at hx
      subst hx
      exact ⟨by simp, by simpa using hp⟩
  | cons e tl ih =>
      intro k hm x hx
      obtain ⟨e1, e2⟩ := e
      simp only [appendFinish] at hx
      by_cases hk : e1 = k
      · rw [if_pos hk] at hx
        rcases List.mem_cons.mp hx with h | h
        · subst h
          refine ⟨by simp, ?_⟩
          intro q hq
          rcases List.mem_append.mp hq with h1 | h1
          · exact (hm (e1, e2) (List.mem_cons_self _ _)).2 q h1
          · rw [List.mem_singleton.mp h1]
            exact hp
        · exact hm x (List.mem_cons_of_mem _ h)
      · rw [if_neg hk] at hx
        rcases List.mem_cons.mp hx with h | h
        · subst h
          exact hm (e1, e2) (List.mem_cons_self _ _)
        · exact ih k (fun y hy => hm y (List.mem_cons_of_mem _ hy)) x h

theorem foldl_appendFinish_good {κ : Type} [DecidableEq κ] (key : ResultEntry → κ) :
    ∀ (res : List ResultEntry) (m : List (κ × List Int)),
      (∀ e ∈ res, 1 ≤ e.position) → goodFinishes m →
      goodFinishes (res.foldl (fun m e => appendFinish m (key e) e.position) m) := by
  intro res
  induction res with
  | nil => intro m _ hm; exact hm
  | cons e rest ih =>
      intro m hres hm
      rw [List.foldl_cons]
      exact ih _ (fun x hx => hres x (List.mem_cons_of_mem _ hx))
        (appendFinish_good e.position (hres e (List.mem_cons_self _ _)) m (key e) hm)

theorem finishesMap_good_aux (P : Provider) (year : Int)
    (hpos : ∀ y r res, P.getSession y r SessionKind.Race = some res → ∀ e ∈ res, 1 ≤ e.position) :
    ∀ (rounds : List Int) (m : List (String × List Int)), goodFinishes m →
      goodFinishes (rounds.foldl (raceFinishFold P year) m) := by
  intro rounds
  induction rounds with
  | nil => intro m hm; exact hm
  | cons r rest ih =>
      intro m hm
      rw [List.foldl_cons]
      refine ih _ ?_
      unfold raceFinishFold
      cases hs : P.getSession year r SessionKind.Race with
      | none => exact hm
      | some res => exact foldl_appendFinish_good ResultEntry.driverId res m (hpos year r res hs) hm

theorem trackMap_good_aux (P : Provider) (circuit : String)
    (hpos : ∀ y r res, P.getSession y r SessionKind.Race = some res → ∀ e ∈ res, 1 ≤ e.position) :
    ∀ (years : List Int) (m : List (String × List Int)), goodFinishes m →
      goodFinishes (years.foldl (trackYearFold P circuit) m) := by
  intro years
  induction years with
  | nil => intro m hm; exact hm
  | cons y rest ih =>
      intro m hm
      rw [List.foldl_cons]
      refine ih _ ?_
      unfold trackYearFold
      cases hsch : P.getSchedule y with
      | none => exact hm
      | some sched =>
          dsimp only
          cases resolveRound sched circuit with
          | none => exact hm
          | some rnd =>
              dsimp only
              cases hs : P.getSession y rnd SessionKind.Race with
              | none => exact hm
              | some res =>
                  exact foldl_appendFinish_good ResultEntry.fullName res m (hpos y rnd res hs) hm

theorem meanOr20_ge_one (ps : List Int) (hne : ps ≠ []) (h1 : ∀ q ∈ ps, 1 ≤ q) :
    1 ≤ meanOr20 ps := by
  unfold meanOr20
  rw [if_neg hne]
  have hlen : (0 : ℚ) < ps.length := by
    have h2 := List.length_pos.mpr hne
    exact_mod_cast h2
  rw [le_div_iff₀ hlen, one_mul]
  have hmap : ∀ x ∈ ps.map (fun p => (Int.cast p : ℚ)), (1 : ℚ) ≤ x := by
    intro x hx
    rcases List.mem_map.mp hx with ⟨q, hq, hqx⟩
    rw [← hqx]
    exact_mod_cast h1 q hq
  have h2 := List.card_nsmul_le_sum (ps.map (fun p => (Int.cast p : ℚ))) 1 hmap
  rwa [List.length_map, nsmul_eq_mul, mul_one] at h2

theorem insertDesc_perm (x : PredictionRow) (l : List PredictionRow) :
    (insertDesc x l).Perm (x :: l) := by
  induction l with
  | nil => exact List.Perm.refl _
  | cons y ys ih =>
      unfold insertDesc
      by_cases h : customScore y ≤ customScore x
      · rw [if_pos h]
      · rw [if_neg h]
        exact (ih.cons y).trans (List.Perm.swap x y ys)

theorem sortByScoreDesc_perm (l : List PredictionRow) : (sortByScoreDesc l).Perm l := by
  induction l with
  | nil => exact List.Perm.refl _
  | cons x xs ih =>
      show (insertDesc x (sortByScoreDesc xs)).Perm (x :: xs)
      exact (insertDesc_perm x (sortByScoreDesc xs)).trans (ih.cons x)

theorem insertDesc_sorted (x : PredictionRow) (l : List PredictionRow)
    (h : l.Sorted (fun a b => customScore b ≤ customScore a)) :
    (insertDesc x l).Sorted (fun a b => customScore b ≤ customScore a) := by
  induction l with
  | nil => simp [insertDesc]
  | cons y ys ih =>
      unfold insertDesc
      rcases List.pairwise_cons.mp h with ⟨hy, hys⟩
      by_cases hc : customScore y ≤ customScore x
      · rw [if_pos hc]
        refine List.pairwise_cons.mpr ⟨?_, h⟩
        intro b hb
        rcases List.mem_cons.mp hb with rfl | hb2
        · exact hc
        · exact le_trans (hy b hb2) hc
      · rw [if_neg hc]
        refine List.pairwise_cons.mpr ⟨?_, ih hys⟩
        intro b hb
        rcases List.mem_cons.mp ((insertDesc_perm x ys).mem_iff.mp hb) with rfl | h2
        · exact le_of_not_le hc
        · exact hy b h2

theorem sortByScoreDesc_sorted (l : List PredictionRow) :
    (sortByScoreDesc l).Sorted (fun a b => customScore b ≤ customScore a) := by
  induction l with
  | nil => simp [sortByScoreDesc]
  | cons x xs ih => exact insertDesc_sorted x (sortByScoreDesc xs) ih

theorem display_drivers_perm (P : Provider) (year : Int) (rounds : List Int) (circuit : String) :
    ((displayRows (predict_race_rows P year rounds circuit)).map DisplayRow.driver).Perm
      ((seasonFold P year rounds).1.map
        (fun drv => ((seasonFold P year rounds).2 drv).getD ("Driver #" ++ drv))) := by
  have h1 : ∀ rows : List PredictionRow,
      (displayRows rows).map DisplayRow.driver
        = (sortByScoreDesc rows).map PredictionRow.driver := by
    intro rows
    unfold displayRows assignRanks
    rw [List.map_map, List.map_map]
    have hcomp : ((DisplayRow.driver ∘ displayRow) ∘ fun p : Nat × PredictionRow => (p.1 + 1, p.2))
        = PredictionRow.driver ∘ Prod.snd := rfl
    rw [hcomp, ← List.map_map, List.enum_map_snd]
  rw [h1]
  have h2 := (sortByScoreDesc_perm (predict_race_rows P year rounds circuit)).map
    PredictionRow.driver
  refine h2.trans ?_
  have h3 : (predict_race_rows P year rounds circuit).map PredictionRow.driver
      = (seasonFold P year rounds).1.map
          (fun drv => ((seasonFold P year rounds).2 drv).getD ("Driver #" ++ drv)) := by
    have hdef : predict_race_rows P year rounds circuit
        = (seasonFold P year rounds).1.map
            (mkRow (get_total_driver_points P year rounds)
              (alookup (get_avg_finish_pos P year rounds))
              (alookup (get_past_track_performance P circuit year))
              (seasonFold P year rounds).2) := rfl
    rw [hdef, List.map_map]
    rfl
  rw [h3]

/-- Claim C1, counterexample. The claim states that the Race and Sprint
sessions of a round are fetched independently, so that Sprint points are still
awarded when the Race fetch of the same round fails. On the provider `Pex1`,
round 1 has a successful Sprint fetch whose winner is driver 44 while the Race
fetch fails, yet `get_total_driver_points` awards driver 44 zero points: the
`except: continue` of the Race block skips the Sprint fetch as well. -/
theorem sprint_points_lost_when_race_fetch_fails :
    Pex1.getSession 2023 1 SessionKind.Sprint
      = some [{ driverId := "44", fullName := "Lewis Hamilton", position := 1 }] ∧
    Pex1.getSession 2023 1 SessionKind.Race = none ∧
    get_total_driver_points Pex1 2023 [1] "44" = 0 :=
  ⟨by decide, by decide, by decide⟩

/-- Claim C1, amended. In `get_total_driver_points` the two session kinds of a
round are not independent: a Race fetch failure skips the whole round, so the
Sprint session of that round is never fetched and contributes nothing; in the
other direction a Sprint fetch failure is indeed non-fatal — when the Race
fetch succeeds and the Sprint fetch fails, exactly the race points of that
round are awarded. -/
theorem race_failure_skips_round (P : Provider) (year rnd : Int) (points : String → ℚ) :
    (P.getSession year rnd SessionKind.Race = none → pointsRound P year rnd points = points) ∧
    (∀ race, P.getSession year rnd SessionKind.Race = some race →
      P.getSession year rnd SessionKind.Sprint = none →
      pointsRound P year rnd points = awardFrom FIA_POINTS_RACE 10 1 race points) := by
  constructor
  · intro h
    unfold pointsRound
    rw [h]
  · intro race h1 h2
    unfold pointsRound
    rw [h1, h2]

/-- Claim C1, witness: on `Pw1`, round 1 (Race fetch fails) changes nothing,
and round 2 (Race succeeds, Sprint fails) awards exactly the race points. -/
theorem race_failure_skips_round_witness :
    pointsRound Pw1 2023 1 (fun _ => 0) = (fun _ => 0) ∧
    pointsRound Pw1 2023 2 (fun _ => 0)
      = awardFrom FIA_POINTS_RACE 10 1
          [{ driverId := "1", fullName := "Max Verstappen", position := 1 }] (fun _ => 0) :=
  ⟨(race_failure_skips_round Pw1 2023 1 (fun _ => 0)).1 (by decide),
   (race_failure_skips_round Pw1 2023 2 (fun _ => 0)).2 _ (by decide) (by decide)⟩

/-- Claim C2, counterexample. The claim states that a driver appears in the
ranked output if and only if it appeared in at least one completed round,
including a driver whose only appearance is in a Sprint result. On `Pex2`,
driver 44 appears in the (successfully fetched) Sprint result of completed
round 1, yet is not collected into `season_drivers` and produces no output
row: the collection loop of `predict_race` fetches only Race sessions. -/
theorem sprint_only_driver_missing_from_output :
    Pex2.getSession 2023 1 SessionKind.Sprint
      = some [{ driverId := "44", fullName := "Lewis Hamilton", position := 1 }] ∧
    "44" ∉ (seasonFold Pex2 2023 [1]).1 ∧
    (predict_race_rows Pex2 2023 [1] "Monza").map PredictionRow.driver = ["Max Verstappen"] :=
  ⟨by decide, by decide, by decide⟩

/-- Claim C2, amended. A driver is in the collected season driver set if and
only if it appears in the result of at least one completed round whose RACE
fetch succeeded (an appearance that is only in a Sprint result does not
count); and the drivers named in the ranked display output are exactly the
names of that collected driver set. -/
theorem season_driver_iff_successful_race_appearance (P : Provider) (year : Int)
    (rounds : List Int) (circuit : String) (d : String) :
    (d ∈ (seasonFold P year rounds).1 ↔
      ∃ rnd ∈ rounds, ∃ res, P.getSession year rnd SessionKind.Race = some res ∧
        ∃ e ∈ res, e.driverId = d) ∧
    ((displayRows (predict_race_rows P year rounds circuit)).map DisplayRow.driver).Perm
      ((seasonFold P year rounds).1.map
        (fun drv => ((seasonFold P year rounds).2 drv).getD ("Driver #" ++ drv))) :=
  ⟨seasonFold_mem_iff P year rounds d, display_drivers_perm P year rounds circuit⟩

/-- Claim C3: for every driver of the season driver set, the composite score of
the row `predict_race` builds for it is
`points*20 + (-meanFinishPosition)*25 + (-trackMeanFinishPosition)*25`, where
points is looked up by driver identifier with default 0, the mean finish
position by driver identifier with default 20, and the track mean finish
position by the driver's displayed full name with default 20; and the row list
of `predict_race` is exactly the image of the season driver set under this row
construction. -/
theorem score_formula (P : Provider) (year : Int) (rounds : List Int) (circuit : String)
    (drv : String) :
    predict_race_rows P year rounds circuit
      = (seasonFold P year rounds).1.map
          (mkRow (get_total_driver_points P year rounds)
            (alookup (get_avg_finish_pos P year rounds))
            (alookup (get_past_track_performance P circuit year))
            (seasonFold P year rounds).2) ∧
    customScore
        (mkRow (get_total_driver_points P year rounds)
          (alookup (get_avg_finish_pos P year rounds))
          (alookup (get_past_track_performance P circuit year))
          (seasonFold P year rounds).2 drv)
      = get_total_driver_points P year rounds drv * 20
        + (-((alookup (get_avg_finish_pos P year rounds) drv).getD 20)) * 25
        + (-((alookup (get_past_track_performance P circuit year)
              (((seasonFold P year rounds).2 drv).getD ("Driver #" ++ drv))).getD 20)) * 25 :=
  ⟨rfl, rfl⟩

/-- Claim C4: for a non-empty row list the predicted ranks are exactly the
dense sequence 1..N with no duplicates and no gaps; the ranks of the rounded
display table coincide with the ranks assigned on the unrounded rows (rounding
to 2 decimals happens after ranking and touches no rank); and the rank-1 entry
carries a maximal composite score, the sort being by score descending. -/
theorem ranking_dense_and_max (rows : List PredictionRow) (h : rows ≠ []) :
    ((displayRows rows).map DisplayRow.predictedRank = List.range' 1 rows.length) ∧
    ((displayRows rows).map DisplayRow.predictedRank = (assignRanks rows).map Prod.fst) ∧
    (∃ p, (assignRanks rows).head? = some p ∧ p.1 = 1 ∧
      ∀ r ∈ rows, customScore r ≤ customScore p.2) := by
  have hperm := sortByScoreDesc_perm rows
  have hlen : (sortByScoreDesc rows).length = rows.length := hperm.length_eq
  have hdisp : (displayRows rows).map DisplayRow.predictedRank
      = (assignRanks rows).map Prod.fst := by
    unfold displayRows
    rw [List.map_map]
    rfl
  have hranks : (assignRanks rows).map Prod.fst = List.range' 1 rows.length := by
    unfold assignRanks
    rw [List.map_map]
    have hcomp : (Prod.fst ∘ fun p : Nat × PredictionRow => (p.1 + 1, p.2))
        = (fun n => n + 1) ∘ Prod.fst := rfl
    rw [hcomp, ← List.map_map, List.enum_map_fst, hlen, List.range'_eq_map_range]
    exact List.map_congr_left (fun n _ => Nat.add_comm n 1)
  refine ⟨hdisp.trans hranks, hdisp, ?_⟩
  cases hs : sortByScoreDesc rows with
  | nil =>
      exfalso
      apply h
      rw [hs] at hlen
      exact List.eq_nil_of_length_eq_zero hlen.symm
  | cons a t =>
      have hhead : (assignRanks rows).head? = some (1, a) := by
        unfold assignRanks
        rw [hs]
        rfl
      refine ⟨(1, a), hhead, rfl, ?_⟩
      intro r hr
      have hr2 : r ∈ a :: t := by
        rw [← hs]
        exact hperm.mem_iff.mpr hr
      have hsorted := sortByScoreDesc_sorted rows
      rw [hs] at hsorted
      rcases List.mem_cons.mp hr2 with rfl | hr3
      · exact le_refl _
      · exact (List.pairwise_cons.mp hsorted).1 r hr3

/-- Claim C4, witness: the ranking property instantiated on the two-row table
`[rowA, rowB]`. -/
theorem ranking_dense_and_max_witness :
    ((displayRows [rowA, rowB]).map DisplayRow.predictedRank
      = List.range' 1 [rowA, rowB].length) ∧
    ((displayRows [rowA, rowB]).map DisplayRow.predictedRank
      = (assignRanks [rowA, rowB]).map Prod.fst) ∧
    (∃ p, (assignRanks [rowA, rowB]).head? = some p ∧ p.1 = 1 ∧
      ∀ r ∈ [rowA, rowB], customScore r ≤ customScore p.2) :=
  ranking_dense_and_max [rowA, rowB] (List.cons_ne_nil _ _)

/-- Claim C5: for every round whose Race result is available,
`get_total_driver_points` awards, per driver, the fixed-table race points —
the entry at position k of the ordered result receives `FIA_POINTS_RACE[k-1]`
for k ≤ 10 and 0 beyond — plus, when the Sprint result of the same round is
also available, the analogous `FIA_POINTS_SPRINT` points for positions 1..8,
the two contributions of the round being added to the running total. -/
theorem pointsRound_fixed_tables (P : Provider) (year rnd : Int) (points : String → ℚ)
    (d : String) (race : List ResultEntry)
    (h : P.getSession year rnd SessionKind.Race = some race) :
    FIA_POINTS_RACE = [25, 18, 15, 12, 10, 8, 6, 4, 2, 1] ∧
    FIA_POINTS_SPRINT = [8, 7, 6, 5, 4, 3, 2, 1] ∧
    pointsRound P year rnd points d
      = points d + sessionContrib FIA_POINTS_RACE 10 d 1 race
        + (match P.getSession year rnd SessionKind.Sprint with
           | none => 0
           | some sprint => sessionContrib FIA_POINTS_SPRINT 8 d 1 sprint) := by
  refine ⟨rfl, rfl, ?_⟩
  unfold pointsRound
  rw [h]
  cases hs : P.getSession year rnd SessionKind.Sprint with
  | none => simp [awardFrom_apply]
  | some sprint =>
      simp only [awardFrom_apply]

/-- Claim C5, witness: the per-round awarding decomposition instantiated at
round 2 of `Pw1`, whose Race fetch succeeds. -/
theorem pointsRound_fixed_tables_witness :
    FIA_POINTS_RACE = [25, 18, 15, 12, 10, 8, 6, 4, 2, 1] ∧
    FIA_POINTS_SPRINT = [8, 7, 6, 5, 4, 3, 2, 1] ∧
    pointsRound Pw1 2023 2 (fun _ => 0) "1"
      = (fun _ => (0 : ℚ)) "1"
        + sessionContrib FIA_POINTS_RACE 10 "1" 1
            [{ driverId := "1", fullName := "Max Verstappen", position := 1 }]
        + (match Pw1.getSession 2023 2 SessionKind.Sprint with
           | none => 0
           | some sprint => sessionContrib FIA_POINTS_SPRINT 8 "1" 1 sprint) :=
  pointsRound_fixed_tables Pw1 2023 2 (fun _ => 0) "1" _ (by decide)

/-- Claim C6: the candidate seasons of `get_past_track_performance` are exactly
the inclusive window [target-3, target-1] intersected with [2018, ∞), and the
function never queries the provider outside that window: two providers that
agree on schedule and session data for every season of the window produce
identical outputs regardless of how they differ elsewhere. -/
theorem track_lookback_window (P Q : Provider) (circuit : String) (year : Int) :
    (∀ y : Int, y ∈ pastYears year ↔ (year - 3 ≤ y ∧ y ≤ year - 1 ∧ 2018 ≤ y)) ∧
    ((∀ y ∈ pastYears year,
        P.getSchedule y = Q.getSchedule y ∧ ∀ r k, P.getSession y r k = Q.getSession y r k) →
      get_past_track_performance P circuit year = get_past_track_performance Q circuit year) := by
  constructor
  · intro y
    simp only [pastYears, List.mem_filter, List.mem_cons, List.not_mem_nil, or_false,
      decide_eq_true_eq]
    omega
  · intro hagree
    unfold get_past_track_performance trackMap
    rw [foldl_congr_on (trackYearFold P circuit) (trackYearFold Q circuit) (pastYears year)
      (fun m y hy => trackYearFold_congr P Q circuit y (hagree y hy).1 (hagree y hy).2 m)]

/-- Claim C6, witness: `PwinA` and `PwinB` differ only at season 2010, far
outside the lookback window of target season 2023, and the track performance
outputs coincide. -/
theorem track_lookback_window_witness :
    get_past_track_performance PwinA "Monza" 2023
      = get_past_track_performance PwinB "Monza" 2023 :=
  (track_lookback_window PwinA PwinB "Monza" 2023).2
    (by
      intro y hy
      have hlist : pastYears 2023 = [2020, 2021, 2022] := by decide
      rw [hlist] at hy
      simp only [List.mem_cons, List.not_mem_nil, or_false] at hy
      refine ⟨?_, fun r k => rfl⟩
      rcases hy with rfl | rfl | rfl <;> decide)

/-- Claim C7: for every provider, season and round list, the cumulative points
of every driver are non-negative, and the accumulator is incremental — running
it on `rounds ++ [r]` equals running it on `rounds` and then folding in round
`r`'s session results. The provider is a function of (season, round, kind), so
repeated fetches of the same key agree by construction, which is the claim's
determinism assumption. -/
theorem points_nonneg_and_incremental (P : Provider) (year : Int) (rounds : List Int)
    (r : Int) :
    (∀ d, 0 ≤ get_total_driver_points P year rounds d) ∧
    get_total_driver_points P year (rounds ++ [r])
      = pointsRound P year r (get_total_driver_points P year rounds) := by
  constructor
  · exact foldl_pointsRound_nonneg P year rounds (fun _ => 0) (fun d => le_refl 0)
  · simp [get_total_driver_points, List.foldl_append]

/-- Claim C8: when the collected season driver set is empty — as happens when
every per-round fetch fails — the scoring-and-ranking stage of `predict_race`
produces the empty table; being a total function, it cannot raise. -/
theorem empty_driver_set_empty_output (P : Provider) (year : Int) (rounds : List Int)
    (circuit : String) (h : (seasonFold P year rounds).1 = []) :
    displayRows (predict_race_rows P year rounds circuit) = [] := by
  have hrows : predict_race_rows P year rounds circuit = [] := by
    have hdef : predict_race_rows P year rounds circuit
        = (seasonFold P year rounds).1.map
            (mkRow (get_total_driver_points P year rounds)
              (alookup (get_avg_finish_pos P year rounds))
              (alookup (get_past_track_performance P circuit year))
              (seasonFold P year rounds).2) := rfl
    rw [hdef, h]
    rfl
  rw [hrows]
  rfl

/-- Claim C8, witness: on the provider where every fetch fails, two completed
rounds yield an empty driver set and an empty ranked table. -/
theorem empty_driver_set_empty_output_witness :
    displayRows (predict_race_rows Pnone 2023 [1, 2] "Monza") = [] :=
  empty_driver_set_empty_output Pnone 2023 [1, 2] "Monza" rfl

/-- Claim C9: in `get_avg_finish_pos` and `get_past_track_performance`, every
key of the accumulated position map carries a non-empty list — the `else 20`
fallback branch of both closing dict comprehensions is unreachable, since a
defaultdict(list) key is only created by appending a position — and, given
that every recorded finish position is at least 1, every returned mean is at
least 1 (so the fallback value 20 is never produced by the fallback branch). -/
theorem avg_and_track_values_ge_one (P : Provider) (year : Int) (rounds : List Int)
    (circuit : String)
    (hpos : ∀ y r res, P.getSession y r SessionKind.Race = some res → ∀ e ∈ res, 1 ≤ e.position) :
    (∀ p ∈ finishesMap P year rounds, p.2 ≠ []) ∧
    (∀ p ∈ get_avg_finish_pos P year rounds, 1 ≤ p.2) ∧
    (∀ p ∈ trackMap P circuit year, p.2 ≠ []) ∧
    (∀ p ∈ get_past_track_performance P circuit year, 1 ≤ p.2) := by
  have hfin : goodFinishes (finishesMap P year rounds) :=
    finishesMap_good_aux P year hpos rounds [] (by intro p hp; cases hp)
  have htrk : goodFinishes (trackMap P circuit year) :=
    trackMap_good_aux P circuit hpos (pastYears year) [] (by intro p hp; cases hp)
  refine ⟨fun p hp => (hfin p hp).1, ?_, fun p hp => (htrk p hp).1, ?_⟩
  · intro p hp
    rcases List.mem_map.mp hp with ⟨q, hq, rfl⟩
    exact meanOr20_ge_one q.2 (hfin q hq).1 (hfin q hq).2
  · intro p hp
    rcases List.mem_map.mp hp with ⟨q, hq, rfl⟩
    exact meanOr20_ge_one q.2 (htrk q hq).1 (htrk q hq).2

/-- Claim C9, witness: on `Pw9`, whose single race result has one driver at
position 1, the average-finish mapping holds the entry ("1", 1) and its value
is at least 1. -/
theorem avg_and_track_values_ge_one_witness :
    ("1", (1 : ℚ)) ∈ get_avg_finish_pos Pw9 2023 [1] ∧
    1 ≤ (("1", (1 : ℚ)) : String × ℚ).2 := by
  have hm : meanOr20 [(1 : Int)] = 1 := by norm_num [meanOr20]
  have heval : get_avg_finish_pos Pw9 2023 [1] = [("1", (1 : ℚ))] := by
    show [(("1" : String), [(1 : Int)])].map (fun p => (p.1, meanOr20 p.2)) = _
    simp [hm]
  have hpos : ∀ y r res, Pw9.getSession y r SessionKind.Race = some res →
      ∀ e ∈ res, 1 ≤ e.position := by
    intro y r res h
    have h0 : Pw9.getSession y r SessionKind.Race
        = some [{ driverId := "1", fullName := "Max Verstappen", position := 1 }] := rfl
    rw [h0] at h
    rw [← Option.some_injective _ h]
    intro e he
    rw [List.mem_singleton.mp he]
  constructor
  · rw [heval]
    exact List.mem_singleton.mpr rfl
  · exact (avg_and_track_values_ge_one Pw9 2023 [1] "Monza" hpos).2.1 ("1", 1)
      (by rw [heval]; exact List.mem_singleton.mpr rfl)

/-- Claim C10: the `name_lookup` entry of a driver equals the full name
recorded in the LAST completed round, in iteration order, whose Race fetch
succeeded and whose results contain that driver — later rounds overwrite
earlier entries — and the row `predict_race` builds for the driver uses that
name both as the displayed driver name and as the key of the track-history
lookup. -/
theorem displayed_name_is_last_recorded (P : Provider) (year : Int) (rounds : List Int)
    (d : String) (track_perf : String → Option ℚ) :
    (seasonFold P year rounds).2 d = lastRecordedName P year rounds d ∧
    (mkRow (get_total_driver_points P year rounds)
        (alookup (get_avg_finish_pos P year rounds)) track_perf
        (seasonFold P year rounds).2 d).driver
      = (lastRecordedName P year rounds d).getD ("Driver #" ++ d) ∧
    (mkRow (get_total_driver_points P year rounds)
        (alookup (get_avg_finish_pos P year rounds)) track_perf
        (seasonFold P year rounds).2 d).trackAvgPos
      = (track_perf ((lastRecordedName P year rounds d).getD ("Driver #" ++ d))).getD 20 := by
  have h := seasonFold_name_lookup P year rounds d
  refine ⟨h, ?_, ?_⟩ <;> simp [mkRow, h]
